import Mathlib

/-!
Verification of the snip721 token data model (`src/token.rs`) and the
operations its specification describes.

The structures below are shallow embeddings of the Rust structs in
`src/token.rs`.  Rust `Option<T>` becomes `Option T`, `Vec<T>` becomes
`List T`, `String` stays `String`, `bool` becomes `Bool`.  Serialization
follows the semantics of the derived serde `Serialize`/`Deserialize`
implementations (no field attributes appear in the source, so every field
is emitted, `None` serializes to JSON `null`, and during deserialization a
missing or `null` entry for an `Option` field yields `None` while any
non-`Option` field must be present).
-/

namespace Snip721

/-- A JSON value, the target of serde serialization.  Objects keep their
fields as an ordered association list, as serde emits them. -/
inductive Json where
  | null : Json
  | str : String → Json
  | bool : Bool → Json
  | arr : List Json → Json
  | obj : List (String × Json) → Json
deriving Repr

/-- Modelled from the spec: `CanonicalAddr` (from `cosmwasm_std`, outside
this module) is "an opaque fixed-form address type with byte-equality
semantics"; we model it as its serialized textual form. -/
def CanonicalAddr := String
deriving DecidableEq, Repr

/-- Modelled from the spec: `Permission` (from `crate::state`, outside this
module) is an "opaque grant record with at least a grantee identity and a
capability tag". -/
structure Permission where
  grantee : CanonicalAddr
  capability : String
deriving DecidableEq, Repr

/-- Modelled from the spec: `CodePermission` (from `crate::state`, outside
this module) is a grant record "scoped to a contract/code-caller rather
than a wallet address". -/
structure CodePermission where
  grantee : CanonicalAddr
  capability : String
deriving DecidableEq, Repr

/-- token (token.rs lines 9-22) -/
structure Token where
  /-- owner -/
  owner : CanonicalAddr
  /-- permissions granted for this token -/
  permissions : List Permission
  /-- permissions granted for this token -/
  code_permissions : List CodePermission
  /-- true if this token has been unwrapped.  If sealed metadata is not
  enabled, all tokens are considered unwrapped -/
  unwrapped : Bool
  /-- true if this token is transferable -/
  transferable : Bool
deriving DecidableEq, Repr

/-- attribute trait (token.rs lines 84-94) -/
structure Trait where
  display_type : Option String
  trait_type : Option String
  value : String
  max_value : Option String
deriving DecidableEq, Repr

/-- media file authentication (token.rs lines 111-117) -/
structure Authentication where
  key : Option String
  user : Option String
deriving DecidableEq, Repr

/-- media file (token.rs lines 97-108) -/
structure MediaFile where
  file_type : Option String
  extension : Option String
  authentication : Option Authentication
  url : String
deriving DecidableEq, Repr

/-- certificate information (token.rs lines 120-128) -/
structure CertificateInfo where
  name : Option String
  cert_type : Option String
  issue_date : Option String
  expire_date : Option String
  cert_number : String
  issuer_id : Option String
deriving DecidableEq, Repr

/-- recipient information (token.rs lines 131-138) -/
structure RecipientInfo where
  first_name : String
  middle_name : Option String
  last_name : String
  date_of_birth : Option String
  id : Option String
deriving DecidableEq, Repr

/-- certified item information (token.rs lines 141-148) -/
structure ItemInfo where
  name : String
  model_number : Option String
  serial_number : Option String
  manufacturer : Option String
  manufacture_date : Option String
deriving DecidableEq, Repr

/-- issuing organization information (token.rs lines 151-156) -/
structure Organization where
  name : Option String
  address : Option String
  url : Option String
deriving DecidableEq, Repr

/-- issuing individual information (token.rs lines 159-164) -/
structure Individual where
  name : Option String
  company : Option String
  title : Option String
deriving DecidableEq, Repr

/-- additional information (token.rs lines 167-174) -/
structure Addition where
  addition_type : Option String
  value : Option String
  details : Option String
  individual : Option Individual
  organization : Option Organization
deriving DecidableEq, Repr

/-- metadata extension (token.rs lines 39-81) -/
structure Extension where
  certificate : CertificateInfo
  certified_individual : Option RecipientInfo
  certified_items : Option (List ItemInfo)
  issuing_organizations : Option (List Organization)
  issuing_individuals : Option (List Individual)
  additions : Option (List Addition)
  image : Option String
  image_data : Option String
  external_url : Option String
  description : Option String
  name : Option String
  attributes : Option (List Trait)
  background_color : Option String
  animation_url : Option String
  youtube_url : Option String
  media : Option (List MediaFile)
  protected_attributes : Option (List String)
  token_subtype : Option String
deriving DecidableEq, Repr

/-- token metadata (token.rs lines 25-32) -/
structure Metadata where
  token_uri : Option String
  extension : Option Extension
deriving DecidableEq, Repr

/-! ### Serialization (derived serde semantics)

No serde field attributes appear in `token.rs`, so the derived
implementations apply: a struct serializes to an object listing every
field in declaration order, an `Option` field serializes `None` as JSON
`null`; on deserialization an `Option` field that is missing or `null`
becomes `None`, and a non-`Option` field must be present. -/

/-- Serialize a value in `Option` position: serde emits `null` for `None`. -/
def serOpt (f : α → Json) : Option α → Json
  | none => Json.null
  | some a => f a

/-- Serialize a `Vec` as a JSON array. -/
def serList (f : α → Json) (l : List α) : Json := Json.arr (l.map f)

def deserStr : Json → Option String
  | Json.str s => some s
  | _ => none

def deserBool : Json → Option Bool
  | Json.bool b => some b
  | _ => none

def deserListAux (g : Json → Option α) : List Json → Option (List α)
  | [] => some []
  | j :: rest => do
    let a ← g j
    let as ← deserListAux g rest
    pure (a :: as)

def deserArr (g : Json → Option α) : Json → Option (List α)
  | Json.arr l => deserListAux g l
  | _ => none

def isNull : Json → Bool
  | Json.null => true
  | _ => false

/-- Deserialize a value in `Option` position: serde maps `null` to `None`
and anything else through the payload deserializer. -/
def deserOptJson (g : Json → Option α) (j : Json) : Option (Option α) :=
  if isNull j then some none else (g j).map some

/-- Read a required (non-`Option`) struct field: serde errors when the
field is missing. -/
def reqField (fs : List (String × Json)) (n : String) (g : Json → Option α) : Option α :=
  (fs.lookup n).bind g

/-- Read an `Option` struct field: serde treats a missing field as `None`. -/
def optField (fs : List (String × Json)) (n : String) (g : Json → Option α) : Option (Option α) :=
  match fs.lookup n with
  | none => some none
  | some j => deserOptJson g j

def serTrait (t : Trait) : Json :=
  Json.obj [("display_type", serOpt Json.str t.display_type),
            ("trait_type", serOpt Json.str t.trait_type),
            ("value", Json.str t.value),
            ("max_value", serOpt Json.str t.max_value)]

def deserTrait : Json → Option Trait
  | Json.obj fs => do
    let display_type ← optField fs "display_type" deserStr
    let trait_type ← optField fs "trait_type" deserStr
    let value ← reqField fs "value" deserStr
    let max_value ← optField fs "max_value" deserStr
    pure ⟨display_type, trait_type, value, max_value⟩
  | _ => none

def serAuthentication (a : Authentication) : Json :=
  Json.obj [("key", serOpt Json.str a.key),
            ("user", serOpt Json.str a.user)]

def deserAuthentication : Json → Option Authentication
  | Json.obj fs => do
    let key ← optField fs "key" deserStr
    let user ← optField fs "user" deserStr
    pure ⟨key, user⟩
  | _ => none

def serMediaFile (m : MediaFile) : Json :=
  Json.obj [("file_type", serOpt Json.str m.file_type),
            ("extension", serOpt Json.str m.extension),
            ("authentication", serOpt serAuthentication m.authentication),
            ("url", Json.str m.url)]

def deserMediaFile : Json → Option MediaFile
  | Json.obj fs => do
    let file_type ← optField fs "file_type" deserStr
    let ext ← optField fs "extension" deserStr
    let authentication ← optField fs "authentication" deserAuthentication
    let url ← reqField fs "url" deserStr
    pure ⟨file_type, ext, authentication, url⟩
  | _ => none

def serCertificateInfo (c : CertificateInfo) : Json :=
  Json.obj [("name", serOpt Json.str c.name),
            ("cert_type", serOpt Json.str c.cert_type),
            ("issue_date", serOpt Json.str c.issue_date),
            ("expire_date", serOpt Json.str c.expire_date),
            ("cert_number", Json.str c.cert_number),
            ("issuer_id", serOpt Json.str c.issuer_id)]

def deserCertificateInfo : Json → Option CertificateInfo
  | Json.obj fs => do
    let name ← optField fs "name" deserStr
    let cert_type ← optField fs "cert_type" deserStr
    let issue_date ← optField fs "issue_date" deserStr
    let expire_date ← optField fs "expire_date" deserStr
    let cert_number ← reqField fs "cert_number" deserStr
    let issuer_id ← optField fs "issuer_id" deserStr
    pure ⟨name, cert_type, issue_date, expire_date, cert_number, issuer_id⟩
  | _ => none

def serRecipientInfo (r : RecipientInfo) : Json :=
  Json.obj [("first_name", Json.str r.first_name),
            ("middle_name", serOpt Json.str r.middle_name),
            ("last_name", Json.str r.last_name),
            ("date_of_birth", serOpt Json.str r.date_of_birth),
            ("id", serOpt Json.str r.id)]

def deserRecipientInfo : Json → Option RecipientInfo
  | Json.obj fs => do
    let first_name ← reqField fs "first_name" deserStr
    let middle_name ← optField fs "middle_name" deserStr
    let last_name ← reqField fs "last_name" deserStr
    let date_of_birth ← optField fs "date_of_birth" deserStr
    let id ← optField fs "id" deserStr
    pure ⟨first_name, middle_name, last_name, date_of_birth, id⟩
  | _ => none

def serItemInfo (i : ItemInfo) : Json :=
  Json.obj [("name", Json.str i.name),
            ("model_number", serOpt Json.str i.model_number),
            ("serial_number", serOpt Json.str i.serial_number),
            ("manufacturer", serOpt Json.str i.manufacturer),
            ("manufacture_date", serOpt Json.str i.manufacture_date)]

def deserItemInfo : Json → Option ItemInfo
  | Json.obj fs => do
    let name ← reqField fs "name" deserStr
    let model_number ← optField fs "model_number" deserStr
    let serial_number ← optField fs "serial_number" deserStr
    let manufacturer ← optField fs "manufacturer" deserStr
    let manufacture_date ← optField fs "manufacture_date" deserStr
    pure ⟨name, model_number, serial_number, manufacturer, manufacture_date⟩
  | _ => none

def serOrganization (o : Organization) : Json :=
  Json.obj [("name", serOpt Json.str o.name),
            ("address", serOpt Json.str o.address),
            ("url", serOpt Json.str o.url)]

def deserOrganization : Json → Option Organization
  | Json.obj fs => do
    let name ← optField fs "name" deserStr
    let address ← optField fs "address" deserStr
    let url ← optField fs "url" deserStr
    pure ⟨name, address, url⟩
  | _ => none

def serIndividual (i : Individual) : Json :=
  Json.obj [("name", serOpt Json.str i.name),
            ("company", serOpt Json.str i.company),
            ("title", serOpt Json.str i.title)]

def deserIndividual : Json → Option Individual
  | Json.obj fs => do
    let name ← optField fs "name" deserStr
    let company ← optField fs "company" deserStr
    let title ← optField fs "title" deserStr
    pure ⟨name, company, title⟩
  | _ => none

def serAddition (a : Addition) : Json :=
  Json.obj [("addition_type", serOpt Json.str a.addition_type),
            ("value", serOpt Json.str a.value),
            ("details", serOpt Json.str a.details),
            ("individual", serOpt serIndividual a.individual),
            ("organization", serOpt serOrganization a.organization)]

def deserAddition : Json → Option Addition
  | Json.obj fs => do
    let addition_type ← optField fs "addition_type" deserStr
    let value ← optField fs "value" deserStr
    let details ← optField fs "details" deserStr
    let individual ← optField fs "individual" deserIndividual
    let organization ← optField fs "organization" deserOrganization
    pure ⟨addition_type, value, details, individual, organization⟩
  | _ => none

def serExtension (e : Extension) : Json :=
  Json.obj [("certificate", serCertificateInfo e.certificate),
            ("certified_individual", serOpt serRecipientInfo e.certified_individual),
            ("certified_items", serOpt (serList serItemInfo) e.certified_items),
            ("issuing_organizations", serOpt (serList serOrganization) e.issuing_organizations),
            ("issuing_individuals", serOpt (serList serIndividual) e.issuing_individuals),
            ("additions", serOpt (serList serAddition) e.additions),
            ("image", serOpt Json.str e.image),
            ("image_data", serOpt Json.str e.image_data),
            ("external_url", serOpt Json.str e.external_url),
            ("description", serOpt Json.str e.description),
            ("name", serOpt Json.str e.name),
            ("attributes", serOpt (serList serTrait) e.attributes),
            ("background_color", serOpt Json.str e.background_color),
            ("animation_url", serOpt Json.str e.animation_url),
            ("youtube_url", serOpt Json.str e.youtube_url),
            ("media", serOpt (serList serMediaFile) e.media),
            ("protected_attributes", serOpt (serList Json.str) e.protected_attributes),
            ("token_subtype", serOpt Json.str e.token_subtype)]

def deserExtension : Json → Option Extension
  | Json.obj fs =>
    match reqField fs "certificate" deserCertificateInfo with
    | none => none
    | some certificate =>
    match optField fs "certified_individual" deserRecipientInfo with
    | none => none
    | some certified_individual =>
    match optField fs "certified_items" (deserArr deserItemInfo) with
    | none => none
    | some certified_items =>
    match optField fs "issuing_organizations" (deserArr deserOrganization) with
    | none => none
    | some issuing_organizations =>
    match optField fs "issuing_individuals" (deserArr deserIndividual) with
    | none => none
    | some issuing_individuals =>
    match optField fs "additions" (deserArr deserAddition) with
    | none => none
    | some additions =>
    match optField fs "image" deserStr with
    | none => none
    | some image =>
    match optField fs "image_data" deserStr with
    | none => none
    | some image_data =>
    match optField fs "external_url" deserStr with
    | none => none
    | some external_url =>
    match optField fs "description" deserStr with
    | none => none
    | some description =>
    match optField fs "name" deserStr with
    | none => none
    | some name =>
    match optField fs "attributes" (deserArr deserTrait) with
    | none => none
    | some attributes =>
    match optField fs "background_color" deserStr with
    | none => none
    | some background_color =>
    match optField fs "animation_url" deserStr with
    | none => none
    | some animation_url =>
    match optField fs "youtube_url" deserStr with
    | none => none
    | some youtube_url =>
    match optField fs "media" (deserArr deserMediaFile) with
    | none => none
    | some media =>
    match optField fs "protected_attributes" (deserArr deserStr) with
    | none => none
    | some protected_attributes =>
    match optField fs "token_subtype" deserStr with
    | none => none
    | some token_subtype =>
    some (Extension.mk certificate certified_individual certified_items issuing_organizations
          issuing_individuals additions image image_data external_url description
          name attributes background_color animation_url youtube_url media
          protected_attributes token_subtype)
  | _ => none

def serMetadata (m : Metadata) : Json :=
  Json.obj [("token_uri", serOpt Json.str m.token_uri),
            ("extension", serOpt serExtension m.extension)]

def deserMetadata : Json → Option Metadata
  | Json.obj fs => do
    let token_uri ← optField fs "token_uri" deserStr
    let ext ← optField fs "extension" deserExtension
    pure ⟨token_uri, ext⟩
  | _ => none

/-- Modelled from the spec: serialization of the opaque `Permission` grant
record (grantee identity and capability tag). -/
def serPermission (p : Permission) : Json :=
  Json.obj [("grantee", Json.str p.grantee),
            ("capability", Json.str p.capability)]

/-- Modelled from the spec: deserialization of the opaque `Permission`
grant record. -/
def deserPermission : Json → Option Permission
  | Json.obj fs => do
    let grantee ← reqField fs "grantee" deserStr
    let capability ← reqField fs "capability" deserStr
    pure ⟨grantee, capability⟩
  | _ => none

/-- Modelled from the spec: serialization of the opaque `CodePermission`
grant record. -/
def serCodePermission (p : CodePermission) : Json :=
  Json.obj [("grantee", Json.str p.grantee),
            ("capability", Json.str p.capability)]

/-- Modelled from the spec: deserialization of the opaque `CodePermission`
grant record. -/
def deserCodePermission : Json → Option CodePermission
  | Json.obj fs => do
    let grantee ← reqField fs "grantee" deserStr
    let capability ← reqField fs "capability" deserStr
    pure ⟨grantee, capability⟩
  | _ => none

def serToken (t : Token) : Json :=
  Json.obj [("owner", Json.str t.owner),
            ("permissions", serList serPermission t.permissions),
            ("code_permissions", serList serCodePermission t.code_permissions),
            ("unwrapped", Json.bool t.unwrapped),
            ("transferable", Json.bool t.transferable)]

def deserToken : Json → Option Token
  | Json.obj fs => do
    let owner ← reqField fs "owner" deserStr
    let permissions ← reqField fs "permissions" (deserArr deserPermission)
    let code_permissions ← reqField fs "code_permissions" (deserArr deserCodePermission)
    let unwrapped ← reqField fs "unwrapped" deserBool
    let transferable ← reqField fs "transferable" deserBool
    pure ⟨owner, permissions, code_permissions, unwrapped, transferable⟩
  | _ => none

/-! ### Derived `Default` values

`token.rs` derives `Default` on every metadata struct.  Rust's derive sets
`String` fields to `""`, `Option` fields to `None`, `Vec` fields to `[]`. -/

def Trait.rustDefault : Trait := Trait.mk none none "" none

def Authentication.rustDefault : Authentication := Authentication.mk none none

def MediaFile.rustDefault : MediaFile := MediaFile.mk none none none ""

def CertificateInfo.rustDefault : CertificateInfo :=
  CertificateInfo.mk none none none none "" none

def RecipientInfo.rustDefault : RecipientInfo := RecipientInfo.mk "" none "" none none

def ItemInfo.rustDefault : ItemInfo := ItemInfo.mk "" none none none none

def Organization.rustDefault : Organization := Organization.mk none none none

def Individual.rustDefault : Individual := Individual.mk none none none

def Addition.rustDefault : Addition := Addition.mk none none none none none

def Extension.rustDefault : Extension :=
  Extension.mk CertificateInfo.rustDefault none none none none none none none none
    none none none none none none none none none

def Metadata.rustDefault : Metadata := Metadata.mk none none

/-! ### Operations

The transaction handlers live outside the visible module; they are
modelled from the spec (§4, §7). -/

/-- Modelled from the spec: the error taxonomy of §7 for the handlers that
are outside the visible module. -/
inductive ContractError where
  | notFound
  | invalidMetadata
  | permissionDenied
  | notTransferable
  | alreadyUnwrapped
deriving DecidableEq, Repr

/-- Rust `str::starts_with`: `strStartsWith s p` is true when `p` is a
prefix of `s`. -/
def strStartsWith (s p : String) : Bool := p.toList.isPrefixOf s.toList

/-- A url-typed field must start with one of the four recognized schemes
(§4.3, and the doc comments in `token.rs`). -/
def validUrl (u : String) : Bool :=
  strStartsWith u "http://" || strStartsWith u "https://" ||
    strStartsWith u "ipfs://" || strStartsWith u "ar://"

def isHexChar (c : Char) : Bool :=
  c.isDigit || (('a' ≤ c) && (c ≤ 'f')) || (('A' ≤ c) && (c ≤ 'F'))

/-- A background color must be exactly six hex characters with no leading
`#` (§4.3). -/
def validColorStr (s : String) : Bool :=
  (s.toList.length == 6) && s.toList.all isHexChar

def optUrlOk : Option String → Bool
  | none => true
  | some u => validUrl u

/-- Modelled from the spec: §4.3 validation applied before persisting an
Extension (the validating write handler is outside the visible module).
Checks every populated url-typed field, the background color, and the
non-emptiness of the required leaf strings; any violation is the
rejected-write error `InvalidMetadata` (§7). -/
def validateExtension (e : Extension) : Except ContractError Unit :=
  if optUrlOk e.image && optUrlOk e.external_url && optUrlOk e.animation_url &&
      optUrlOk e.youtube_url &&
      (e.media.getD []).all (fun mf => validUrl mf.url) &&
      (match e.background_color with
       | none => true
       | some c => validColorStr c) &&
      !(e.certificate.cert_number == "") &&
      (match e.certified_individual with
       | none => true
       | some r => !(r.first_name == "") && !(r.last_name == "")) then
    Except.ok ()
  else
    Except.error ContractError.invalidMetadata

/-- Modelled from the spec: whether an opaque `Permission` entry grants
`capability` to `grantee` (the `is_permitted(grantee, capability)`-style
predicate of §6). -/
def permMatches (p : Permission) (grantee : CanonicalAddr) (capability : String) : Bool :=
  p.grantee == grantee && p.capability == capability

/-- Modelled from the spec: whether an opaque `CodePermission` entry grants
`capability` to `grantee`. -/
def codePermMatches (p : CodePermission) (grantee : CanonicalAddr) (capability : String) : Bool :=
  p.grantee == grantee && p.capability == capability

/-- Modelled from the spec: the token-level permission-evaluation entry
point of §4.1 — a pure function over `permissions`, `code_permissions` and
`owner == requester`, with the owner always implicitly fully permitted. -/
def is_permitted (t : Token) (requester : CanonicalAddr) (capability : String) : Bool :=
  requester == t.owner ||
    t.permissions.any (fun p => permMatches p requester capability) ||
    t.code_permissions.any (fun p => codePermMatches p requester capability)

/-- Modelled from the spec: §4.1 construction — mint a token with
`(owner, transferable, sealed_metadata_enabled)`, empty grant lists, and
`unwrapped = !sealed_metadata_enabled`. -/
def mkToken (owner : CanonicalAddr) (transferable sealed_metadata_enabled : Bool) : Token :=
  Token.mk owner [] [] (!sealed_metadata_enabled) transferable

/-- Modelled from the spec: `mark_unwrapped()` sets `unwrapped = true`;
a no-op if already true (§4.1). -/
def mark_unwrapped (t : Token) : Token :=
  Token.mk t.owner t.permissions t.code_permissions true t.transferable

/-- Modelled from the spec: `grant` with set-like semantics (§4.1),
preserving insertion order. -/
def grantPerm (t : Token) (p : Permission) : Token :=
  Token.mk t.owner
    (if t.permissions.contains p then t.permissions else t.permissions ++ [p])
    t.code_permissions t.unwrapped t.transferable

/-- Modelled from the spec: `revoke` removes the grant entry (§4.1, §8). -/
def revokePerm (t : Token) (p : Permission) : Token :=
  Token.mk t.owner (t.permissions.filter (fun q => !(q == p)))
    t.code_permissions t.unwrapped t.transferable

/-- Modelled from the spec: `grant` on the code-permission list. -/
def grantCodePerm (t : Token) (p : CodePermission) : Token :=
  Token.mk t.owner t.permissions
    (if t.code_permissions.contains p then t.code_permissions else t.code_permissions ++ [p])
    t.unwrapped t.transferable

/-- Modelled from the spec: `revoke` on the code-permission list. -/
def revokeCodePerm (t : Token) (p : CodePermission) : Token :=
  Token.mk t.owner t.permissions (t.code_permissions.filter (fun q => !(q == p)))
    t.unwrapped t.transferable

/-- Modelled from the spec: the transfer handler (outside the visible
module).  `transferable = false` is a hard veto checked before any
permission evaluation (§3, §7): it fails with `NotTransferable` regardless
of the grant lists. -/
def transfer (t : Token) (requester recipient : CanonicalAddr) :
    Except ContractError Token :=
  if t.transferable = false then
    Except.error ContractError.notTransferable
  else if is_permitted t requester "transfer" then
    Except.ok (Token.mk recipient t.permissions t.code_permissions t.unwrapped t.transferable)
  else
    Except.error ContractError.permissionDenied

/-- Modelled from the spec: the operations of the core that touch a Token
record (§4.1 mutators plus the transfer handler). -/
inductive TokenOp where
  | grant (p : Permission)
  | revoke (p : Permission)
  | grantCode (p : CodePermission)
  | revokeCode (p : CodePermission)
  | markUnwrapped
  | transferTo (requester recipient : CanonicalAddr)
deriving Repr

/-- Apply one operation to a token; a failed transfer leaves the record
unchanged (atomicity, §5). -/
def applyOp (t : Token) : TokenOp → Token
  | TokenOp.grant p => grantPerm t p
  | TokenOp.revoke p => revokePerm t p
  | TokenOp.grantCode p => grantCodePerm t p
  | TokenOp.revokeCode p => revokeCodePerm t p
  | TokenOp.markUnwrapped => mark_unwrapped t
  | TokenOp.transferTo requester recipient =>
    match transfer t requester recipient with
    | Except.ok t2 => t2
    | Except.error _ => t

/-- Apply a sequence of operations in order. -/
def applyOps (t : Token) (ops : List TokenOp) : Token := ops.foldl applyOp t

/-! ### Metadata resolution (§4.2) -/

/-- Replace the `attributes` list of an Extension, keeping every other
field. -/
def Extension.withAttributes (e : Extension) (attrs : Option (List Trait)) : Extension :=
  Extension.mk e.certificate e.certified_individual e.certified_items
    e.issuing_organizations e.issuing_individuals e.additions e.image e.image_data
    e.external_url e.description e.name attrs e.background_color e.animation_url
    e.youtube_url e.media e.protected_attributes e.token_subtype

/-- Whether a trait survives redaction: it is kept unless its `trait_type`
is listed among the protected attribute names. -/
def traitKept (prot : List String) (tr : Trait) : Bool :=
  match tr.trait_type with
  | some ty => !(prot.contains ty)
  | none => true

/-- Modelled from the spec: the §4.2 non-privileged sealed view — the
public record with every `attributes` entry whose `trait_type` is listed
in `protected_attributes` omitted (the omission arm of the §9 policy
choice). -/
def redactPublic (pub : Metadata) : Metadata :=
  match pub.extension with
  | none => pub
  | some pe =>
    let prot := pe.protected_attributes.getD []
    let attrs :=
      match pe.attributes with
      | none => none
      | some l => some (l.filter (traitKept prot))
    Metadata.mk pub.token_uri (some (pe.withAttributes attrs))

/-- Modelled from the spec: the §4.2 unwrapped view — the private record
merged over the public one: each public trait whose `trait_type` is named
in `protected_attributes` is replaced by the private trait of the same
`trait_type` when one exists. -/
def mergeUnwrapped (pub priv : Metadata) : Metadata :=
  match pub.extension, priv.extension with
  | some pe, some se =>
    let prot := pe.protected_attributes.getD []
    let attrs :=
      match pe.attributes with
      | none => none
      | some l =>
        some (l.map (fun tr =>
          match tr.trait_type with
          | some ty =>
            if prot.contains ty then
              match (se.attributes.getD []).find? (fun sv => sv.trait_type == some ty) with
              | some sv => sv
              | none => tr
            else tr
          | none => tr))
    Metadata.mk pub.token_uri (some (pe.withAttributes attrs))
  | _, _ => priv

/-- Modelled from the spec: `resolve_visible(metadata_public,
metadata_private, unwrapped, requester_is_privileged)` — the read-only
projection of §4.2. -/
def resolve_visible (metadata_public metadata_private : Metadata)
    (unwrapped requester_is_privileged : Bool) : Metadata :=
  if unwrapped then
    mergeUnwrapped metadata_public metadata_private
  else if requester_is_privileged then
    metadata_private
  else
    redactPublic metadata_public

/-- The storage collaborator's state (§6): tokens and their metadata pairs
indexed by token id. -/
def ContractStore := List (String × (Token × Metadata × Metadata))
deriving Repr

/-- Modelled from the spec: invoking `resolve_visible` as a query against
the store — it reads nothing beyond its arguments and writes nothing
("No side effects; this is a read-only projection", §4.2). -/
def resolve_visible_call (metadata_public metadata_private : Metadata)
    (unwrapped requester_is_privileged : Bool) (store : ContractStore) :
    Metadata × ContractStore :=
  (resolve_visible metadata_public metadata_private unwrapped requester_is_privileged, store)

/-! ### Round-trip lemmas for the serializers -/

theorem deserStr_str (s : String) : deserStr (Json.str s) = some s := rfl

theorem deserBool_bool (b : Bool) : deserBool (Json.bool b) = some b := rfl

theorem str_ne_null (s : String) : Json.str s ≠ Json.null := by simp

theorem arr_ne_null (l : List Json) : Json.arr l ≠ Json.null := by simp

theorem isNull_eq_false {j : Json} (h : j ≠ Json.null) : isNull j = false := by
  cases j <;> simp_all [isNull]

theorem deserOptJson_serOpt {α : Type} (g : Json → Option α) (f : α → Json)
    (hg : ∀ a, g (f a) = some a) (hn : ∀ a, f a ≠ Json.null) (o : Option α) :
    deserOptJson g (serOpt f o) = some o := by
  cases o with
  | none => rfl
  | some a => simp [serOpt, deserOptJson, isNull_eq_false (hn a), hg a]

theorem deserListAux_map {α : Type} (g : Json → Option α) (f : α → Json)
    (hg : ∀ a, g (f a) = some a) (l : List α) :
    deserListAux g (l.map f) = some l := by
  induction l with
  | nil => rfl
  | cons a t ih => simp [deserListAux, hg a, ih]

theorem deserArr_serList {α : Type} (g : Json → Option α) (f : α → Json)
    (hg : ∀ a, g (f a) = some a) (l : List α) :
    deserArr g (serList f l) = some l := by
  simp [serList, deserArr, deserListAux_map g f hg]

theorem deserOptJson_str (o : Option String) :
    deserOptJson deserStr (serOpt Json.str o) = some o :=
  deserOptJson_serOpt deserStr Json.str deserStr_str str_ne_null o

theorem deserTrait_ser (t : Trait) : deserTrait (serTrait t) = some t := by
  cases t
  simp [serTrait, deserTrait, reqField, optField, List.lookup, deserOptJson_str, deserStr]

theorem serList_ne_null {α : Type} (f : α → Json) (l : List α) :
    serList f l ≠ Json.null := by
  simp [serList]

theorem deserOptJson_arr {α : Type} (g : Json → Option α) (f : α → Json)
    (hg : ∀ a, g (f a) = some a) (o : Option (List α)) :
    deserOptJson (deserArr g) (serOpt (serList f) o) = some o :=
  deserOptJson_serOpt (deserArr g) (serList f) (deserArr_serList g f hg)
    (serList_ne_null f) o

theorem deserAuthentication_ser (a : Authentication) :
    deserAuthentication (serAuthentication a) = some a := by
  cases a
  simp [serAuthentication, deserAuthentication, optField, List.lookup, deserOptJson_str]

theorem serAuthentication_ne_null (a : Authentication) :
    serAuthentication a ≠ Json.null := by
  simp [serAuthentication]

theorem deserMediaFile_ser (m : MediaFile) : deserMediaFile (serMediaFile m) = some m := by
  cases m
  simp [serMediaFile, deserMediaFile, reqField, optField, List.lookup, deserOptJson_str,
    deserStr,
    deserOptJson_serOpt deserAuthentication serAuthentication deserAuthentication_ser
      serAuthentication_ne_null]

theorem deserCertificateInfo_ser (c : CertificateInfo) :
    deserCertificateInfo (serCertificateInfo c) = some c := by
  cases c
  simp [serCertificateInfo, deserCertificateInfo, reqField, optField, List.lookup,
    deserOptJson_str, deserStr]

theorem deserRecipientInfo_ser (r : RecipientInfo) :
    deserRecipientInfo (serRecipientInfo r) = some r := by
  cases r
  simp [serRecipientInfo, deserRecipientInfo, reqField, optField, List.lookup,
    deserOptJson_str, deserStr]

theorem serRecipientInfo_ne_null (r : RecipientInfo) :
    serRecipientInfo r ≠ Json.null := by
  simp [serRecipientInfo]

theorem deserItemInfo_ser (i : ItemInfo) : deserItemInfo (serItemInfo i) = some i := by
  cases i
  simp [serItemInfo, deserItemInfo, reqField, optField, List.lookup, deserOptJson_str,
    deserStr]

theorem deserOrganization_ser (o : Organization) :
    deserOrganization (serOrganization o) = some o := by
  cases o
  simp [serOrganization, deserOrganization, optField, List.lookup, deserOptJson_str]

theorem serOrganization_ne_null (o : Organization) :
    serOrganization o ≠ Json.null := by
  simp [serOrganization]

theorem deserIndividual_ser (i : Individual) :
    deserIndividual (serIndividual i) = some i := by
  cases i
  simp [serIndividual, deserIndividual, optField, List.lookup, deserOptJson_str]

theorem serIndividual_ne_null (i : Individual) :
    serIndividual i ≠ Json.null := by
  simp [serIndividual]

theorem deserAddition_ser (a : Addition) : deserAddition (serAddition a) = some a := by
  cases a
  simp [serAddition, deserAddition, optField, List.lookup, deserOptJson_str,
    deserOptJson_serOpt deserIndividual serIndividual deserIndividual_ser
      serIndividual_ne_null,
    deserOptJson_serOpt deserOrganization serOrganization deserOrganization_ser
      serOrganization_ne_null]

theorem deserExtension_ser (e : Extension) : deserExtension (serExtension e) = some e := by
  cases e
  simp [serExtension, deserExtension, reqField, optField, List.lookup, deserOptJson_str,
    deserCertificateInfo_ser,
    deserOptJson_serOpt deserRecipientInfo serRecipientInfo deserRecipientInfo_ser
      serRecipientInfo_ne_null,
    deserOptJson_arr deserItemInfo serItemInfo deserItemInfo_ser,
    deserOptJson_arr deserOrganization serOrganization deserOrganization_ser,
    deserOptJson_arr deserIndividual serIndividual deserIndividual_ser,
    deserOptJson_arr deserAddition serAddition deserAddition_ser,
    deserOptJson_arr deserTrait serTrait deserTrait_ser,
    deserOptJson_arr deserMediaFile serMediaFile deserMediaFile_ser,
    deserOptJson_arr deserStr Json.str deserStr_str]

theorem serExtension_ne_null (e : Extension) : serExtension e ≠ Json.null := by
  simp [serExtension]

theorem deserMetadata_ser (m : Metadata) : deserMetadata (serMetadata m) = some m := by
  cases m
  simp [serMetadata, deserMetadata, optField, List.lookup, deserOptJson_str,
    deserOptJson_serOpt deserExtension serExtension deserExtension_ser
      serExtension_ne_null]

theorem deserPermission_ser (p : Permission) :
    deserPermission (serPermission p) = some p := by
  cases p
  simp [serPermission, deserPermission, reqField, List.lookup, deserStr]

theorem deserCodePermission_ser (p : CodePermission) :
    deserCodePermission (serCodePermission p) = some p := by
  cases p
  simp [serCodePermission, deserCodePermission, reqField, List.lookup, deserStr]

theorem deserToken_ser (t : Token) : deserToken (serToken t) = some t := by
  cases t
  simp [serToken, deserToken, reqField, List.lookup, deserStr, deserBool_bool,
    deserArr_serList deserPermission serPermission deserPermission_ser,
    deserArr_serList deserCodePermission serCodePermission deserCodePermission_ser]

/-! ### Helper lemmas for the claims -/

theorem applyOp_unwrapped_mono (t : Token) (op : TokenOp) (h : t.unwrapped = true) :
    (applyOp t op).unwrapped = true := by
  cases op with
  | grant p => simp [applyOp, grantPerm, h]
  | revoke p => simp [applyOp, revokePerm, h]
  | grantCode p => simp [applyOp, grantCodePerm, h]
  | revokeCode p => simp [applyOp, revokeCodePerm, h]
  | markUnwrapped => simp [applyOp, mark_unwrapped]
  | transferTo requester recipient =>
    simp only [applyOp, transfer]
    by_cases ht : t.transferable = false
    · simp [ht, h]
    · by_cases hp : is_permitted t requester "transfer" = true
      · simp [ht, hp, h]
      · simp [ht, hp, h]

theorem applyOps_unwrapped_mono (t : Token) (ops : List TokenOp) (h : t.unwrapped = true) :
    (applyOps t ops).unwrapped = true := by
  induction ops generalizing t with
  | nil => exact h
  | cons op rest ih =>
    simp only [applyOps, List.foldl_cons]
    exact ih (applyOp t op) (applyOp_unwrapped_mono t op h)

/-! ### The claims -/

/-- C1: the `unwrapped` flag is monotonic — a token constructed when
sealed metadata is not enabled starts with `unwrapped = true`, and once
`unwrapped` is true no sequence of core operations (grant, revoke,
mark_unwrapped, transfer) ever sets it back to false. -/
theorem c1_unwrapped_monotonic :
    (∀ (owner : CanonicalAddr) (transferable : Bool),
      (mkToken owner transferable false).unwrapped = true) ∧
    (∀ (t : Token) (ops : List TokenOp), t.unwrapped = true →
      (applyOps t ops).unwrapped = true) :=
  ⟨fun _ _ => rfl, fun t ops h => applyOps_unwrapped_mono t ops h⟩

/-- C1 witness: a concrete token minted without sealed metadata stays
unwrapped across a reveal and a transfer. -/
theorem c1_unwrapped_monotonic_witness :
    (applyOps (mkToken "alice" true false)
      [TokenOp.markUnwrapped, TokenOp.transferTo "alice" "bob"]).unwrapped = true :=
  c1_unwrapped_monotonic.2 (mkToken "alice" true false)
    [TokenOp.markUnwrapped, TokenOp.transferTo "alice" "bob"] rfl

/-- C2: when `transferable = false`, a transfer attempt fails with
`NotTransferable` whatever grant entries the token carries — the veto is
checked before any permission evaluation. -/
theorem c2_not_transferable (t : Token) (requester recipient : CanonicalAddr)
    (h : t.transferable = false) :
    transfer t requester recipient = Except.error ContractError.notTransferable := by
  simp [transfer, h]

/-- C2 witness: a non-transferable token with grant entries naming the
requester still fails with `NotTransferable`. -/
theorem c2_not_transferable_witness :
    transfer
      (Token.mk "alice" [Permission.mk "bob" "transfer"]
        [CodePermission.mk "code_hash" "transfer"] true false) "bob" "carol" =
      Except.error ContractError.notTransferable :=
  c2_not_transferable
    (Token.mk "alice" [Permission.mk "bob" "transfer"]
      [CodePermission.mk "code_hash" "transfer"] true false) "bob" "carol" rfl

/-- C5: serializing then deserializing any Token or Metadata value yields
the original value, including when all optional fields are absent. -/
theorem c5_roundtrip :
    (∀ t : Token, deserToken (serToken t) = some t) ∧
    (∀ m : Metadata, deserMetadata (serMetadata m) = some m) :=
  ⟨deserToken_ser, deserMetadata_ser⟩

/-- C6: the permission-evaluation entry point always permits the owner,
for every token (in particular one with empty grant lists, as produced by
`mkToken`) and every capability. -/
theorem c6_owner_always_permitted :
    (∀ (t : Token) (capability : String), is_permitted t t.owner capability = true) ∧
    (∀ (owner : CanonicalAddr) (tr se : Bool) (capability : String),
      is_permitted (mkToken owner tr se) owner capability = true) := by
  constructor
  · intro t capability
    simp [is_permitted]
  · intro owner tr se capability
    simp [is_permitted, mkToken]

/-- The field list of a serialized object (empty for non-objects). -/
def Json.objFields : Json → List (String × Json)
  | Json.obj fs => fs
  | _ => []

/-- C3 counterexample: the claim names Trait.value, MediaFile.url,
CertificateInfo.cert_number and RecipientInfo.first_name/last_name as the
only mandatory leaf fields, but `ItemInfo.name` is a plain `String` in
`token.rs` (line 143), so it is mandatory too: deserializing an ItemInfo
from an object with every field absent fails, while supplying only `name`
succeeds. -/
theorem c3_counterexample :
    deserItemInfo (Json.obj []) = none ∧
    deserItemInfo (Json.obj [("name", Json.str "widget")]) =
      some (ItemInfo.mk "widget" none none none none) :=
  ⟨rfl, rfl⟩

/-- C3 (amended): in every leaf record every field is optional except
exactly the domain-required ones — `Trait.value`, `MediaFile.url`,
`CertificateInfo.cert_number`, `RecipientInfo.first_name`/`last_name`,
and also `ItemInfo.name`; all fields of Authentication, Organization,
Individual and Addition are optional. -/
theorem c3_leaf_optionality :
    deserTrait (Json.obj [("value", Json.str "v")]) =
      some (Trait.mk none none "v" none) ∧
    deserTrait (Json.obj []) = none ∧
    deserMediaFile (Json.obj [("url", Json.str "u")]) =
      some (MediaFile.mk none none none "u") ∧
    deserMediaFile (Json.obj []) = none ∧
    deserAuthentication (Json.obj []) = some (Authentication.mk none none) ∧
    deserCertificateInfo (Json.obj [("cert_number", Json.str "c")]) =
      some (CertificateInfo.mk none none none none "c" none) ∧
    deserCertificateInfo (Json.obj []) = none ∧
    deserRecipientInfo (Json.obj [("first_name", Json.str "f"), ("last_name", Json.str "l")]) =
      some (RecipientInfo.mk "f" none "l" none none) ∧
    deserRecipientInfo (Json.obj [("first_name", Json.str "f")]) = none ∧
    deserRecipientInfo (Json.obj [("last_name", Json.str "l")]) = none ∧
    deserItemInfo (Json.obj [("name", Json.str "n")]) =
      some (ItemInfo.mk "n" none none none none) ∧
    deserItemInfo (Json.obj []) = none ∧
    deserOrganization (Json.obj []) = some (Organization.mk none none none) ∧
    deserIndividual (Json.obj []) = some (Individual.mk none none none) ∧
    deserAddition (Json.obj []) = some (Addition.mk none none none none none) :=
  ⟨rfl, rfl, rfl, rfl, rfl, rfl, rfl, rfl, rfl, rfl, rfl, rfl, rfl, rfl, rfl⟩

/-- C4 counterexample: the derived serializers carry no
`skip_serializing_if` attribute, so an absent optional field is serialized
as an explicit `null` entry, not omitted: the all-absent Metadata
serializes to an object that still contains a `token_uri` entry. -/
theorem c4_counterexample :
    serMetadata (Metadata.mk none none) =
      Json.obj [("token_uri", Json.null), ("extension", Json.null)] ∧
    ("token_uri", Json.null) ∈ Json.objFields (serMetadata (Metadata.mk none none)) :=
  ⟨rfl, List.Mem.head _⟩

/-- C4 (amended): serializing a Metadata (and an Extension) emits an entry
for every field; an optional field that is absent appears as an explicit
`null` entry rather than being omitted. -/
theorem c4_nulls_emitted :
    (∀ m : Metadata, m.token_uri = none →
      ("token_uri", Json.null) ∈ Json.objFields (serMetadata m)) ∧
    (∀ m : Metadata, m.extension = none →
      ("extension", Json.null) ∈ Json.objFields (serMetadata m)) ∧
    serExtension Extension.rustDefault =
      Json.obj [("certificate", serCertificateInfo CertificateInfo.rustDefault),
                ("certified_individual", Json.null),
                ("certified_items", Json.null),
                ("issuing_organizations", Json.null),
                ("issuing_individuals", Json.null),
                ("additions", Json.null),
                ("image", Json.null),
                ("image_data", Json.null),
                ("external_url", Json.null),
                ("description", Json.null),
                ("name", Json.null),
                ("attributes", Json.null),
                ("background_color", Json.null),
                ("animation_url", Json.null),
                ("youtube_url", Json.null),
                ("media", Json.null),
                ("protected_attributes", Json.null),
                ("token_subtype", Json.null)] := by
  refine ⟨?_, ?_, rfl⟩
  · intro m h
    cases m
    simp only at h
    subst h
    exact List.Mem.head _
  · intro m h
    cases m
    simp only at h
    subst h
    exact List.Mem.tail _ (List.Mem.head _)

/-- C4 witness: the amended theorem applied to the all-absent Metadata. -/
theorem c4_nulls_emitted_witness :
    ("token_uri", Json.null) ∈ Json.objFields (serMetadata (Metadata.mk none none)) :=
  c4_nulls_emitted.1 (Metadata.mk none none) rfl

/-- C8: `Extension.certificate` is mandatory — deserialization fails when
the `certificate` entry is missing, succeeds as soon as it is present (even
with every individual certificate field empty), and every serialized
Extension carries its certificate entry. -/
theorem c8_certificate_mandatory :
    deserExtension (Json.obj []) = none ∧
    deserExtension (Json.obj [("certificate", Json.obj [("cert_number", Json.str "c")])]) =
      some (Extension.mk (CertificateInfo.mk none none none none "c" none)
        none none none none none none none none none none none none none none none
        none none) ∧
    (∀ e : Extension,
      ("certificate", serCertificateInfo e.certificate) ∈ Json.objFields (serExtension e)) :=
  ⟨rfl, rfl, fun _ => List.Mem.head _⟩

/-- C9: `resolve_visible` is a pure, deterministic projection — invoked
twice with identical inputs it returns identical Metadata, and each call
leaves the store exactly as it found it. -/
theorem c9_resolve_visible_pure (metadata_public metadata_private : Metadata)
    (unwrapped requester_is_privileged : Bool) (store : ContractStore) :
    (resolve_visible_call metadata_public metadata_private unwrapped
        requester_is_privileged store).1 =
      (resolve_visible_call metadata_public metadata_private unwrapped
        requester_is_privileged
        ((resolve_visible_call metadata_public metadata_private unwrapped
          requester_is_privileged store).2)).1 ∧
    (resolve_visible_call metadata_public metadata_private unwrapped
        requester_is_privileged store).2 = store :=
  ⟨rfl, rfl⟩

/-- C10: the derived Default values set every domain-required leaf string
to the empty string, so a default-constructible Extension violates the
§4.3 non-empty rule and is caught only by validation, which rejects it. -/
theorem c10_defaults_violate_validation :
    CertificateInfo.rustDefault.cert_number = "" ∧
    RecipientInfo.rustDefault.first_name = "" ∧
    RecipientInfo.rustDefault.last_name = "" ∧
    ItemInfo.rustDefault.name = "" ∧
    Trait.rustDefault.value = "" ∧
    MediaFile.rustDefault.url = "" ∧
    Extension.rustDefault.certificate.cert_number = "" ∧
    validateExtension Extension.rustDefault = Except.error ContractError.invalidMetadata :=
  ⟨rfl, rfl, rfl, rfl, rfl, rfl, rfl, rfl⟩

/-- An Extension whose only populated content is one media file with a
scheme-less url. -/
def badMediaExt : Extension :=
  Extension.mk (CertificateInfo.mk none none none none "123" none)
    none none none none none none none none none none none none none none
    (some [MediaFile.mk none none none "www.example.com/img.png"]) none none

/-- An Extension whose only populated content is one media file with an
`ipfs://` url. -/
def goodMediaExt : Extension :=
  Extension.mk (CertificateInfo.mk none none none none "123" none)
    none none none none none none none none none none none none none none
    (some [MediaFile.mk none none none "ipfs://bafybeigdyrztexample/img.png"]) none none

/-- C7: validation accepts an Extension only when every populated
url-typed field (`image`, `external_url`, `animation_url`, `youtube_url`,
each `MediaFile.url`) starts with a recognized scheme; a bad media url is
rejected with `InvalidMetadata` (never silently accepted); in particular
`"www.example.com/img.png"` is rejected and an `ipfs://` url accepted. -/
theorem c7_url_validation :
    (∀ e : Extension, validateExtension e = Except.ok () →
      (∀ u, e.image = some u → validUrl u = true) ∧
      (∀ u, e.external_url = some u → validUrl u = true) ∧
      (∀ u, e.animation_url = some u → validUrl u = true) ∧
      (∀ u, e.youtube_url = some u → validUrl u = true) ∧
      (∀ ms, e.media = some ms → ∀ mf ∈ ms, validUrl mf.url = true)) ∧
    (∀ (e : Extension) (ms : List MediaFile) (mf : MediaFile),
      e.media = some ms → mf ∈ ms → validUrl mf.url = false →
      validateExtension e = Except.error ContractError.invalidMetadata) ∧
    validUrl "www.example.com/img.png" = false ∧
    validUrl "ipfs://bafybeigdyrztexample/img.png" = true ∧
    validateExtension badMediaExt = Except.error ContractError.invalidMetadata ∧
    validateExtension goodMediaExt = Except.ok () := by
  refine ⟨?_, ?_, by decide, by decide, rfl, rfl⟩
  · intro e h
    unfold validateExtension at h
    split at h
    · next hcond =>
      simp only [Bool.and_eq_true] at hcond
      obtain ⟨⟨⟨⟨⟨⟨⟨h1, h2⟩, h3⟩, h4⟩, h5⟩, _⟩, _⟩, _⟩ := hcond
      refine ⟨?_, ?_, ?_, ?_, ?_⟩
      · intro u hu
        rw [hu] at h1
        simpa [optUrlOk] using h1
      · intro u hu
        rw [hu] at h2
        simpa [optUrlOk] using h2
      · intro u hu
        rw [hu] at h3
        simpa [optUrlOk] using h3
      · intro u hu
        rw [hu] at h4
        simpa [optUrlOk] using h4
      · intro ms hms mf hmf
        rw [hms] at h5
        simp only [Option.getD_some, List.all_eq_true] at h5
        exact h5 mf hmf
    · exact absurd h (by simp)
  · intro e ms mf hms hmf hbad
    have hall : (e.media.getD []).all (fun x => validUrl x.url) = false := by
      rw [hms]
      simp only [Option.getD_some]
      exact List.all_eq_false.mpr ⟨mf, hmf, by simp [hbad]⟩
    simp [validateExtension, hall]

/-- C7 witness: the rejection branch applied to the concrete Extension
holding the scheme-less media url. -/
theorem c7_url_validation_witness :
    validateExtension badMediaExt = Except.error ContractError.invalidMetadata :=
  c7_url_validation.2.1 badMediaExt
    [MediaFile.mk none none none "www.example.com/img.png"]
    (MediaFile.mk none none none "www.example.com/img.png")
    rfl (List.Mem.head _) (by decide)

end Snip721
